import Mathlib

/-!
# Booking ledger: a shallow embedding of `backend/main.py`

The repository is a booking-request approval service.  The core is the
booking lifecycle (`pending → approved → cancelled`, `pending → rejected`),
the date-conflict check among approved bookings, and the retention cleanup.
This file embeds the data model and the route handlers of
`src/backend/main.py` as executable Lean definitions and proves the
specified properties about them.

Modelling choices:
* Dates (`date`) and timestamps (`datetime`) become `Int` (ordinal days
  resp. an abstract totally ordered instant type); only their ordering
  matters to the code.
* The database table becomes a `List Booking` plus the autoincrement
  counter `next_id`; a primary-key lookup `db.get(Booking, id)` becomes
  `List.find?` on the id and `ORDER BY` becomes `List.mergeSort`.
* `HTTPException(code, detail)` becomes the `HTTPError` structure; each
  route handler returns the (possibly unchanged) ledger together with
  `Except HTTPError result`, mirroring the raise-before-write structure
  of the Python handlers.
* The e-mail side effects (`send_email`, `BackgroundTasks`) are plumbing
  outside the core and are not modelled.
-/

/-- One row of the `bookings` table (class `Booking` in `main.py`).
`status` is stored as a string, exactly as in the database column. -/
structure Booking where
  id : Nat
  requester_name : String
  requester_email : String
  start_date : Int
  end_date : Int
  status : String
  notes : Option String
  created_at : Int
  decision_at : Option Int
  decided_by : Option String
deriving Repr, DecidableEq

/-- The ledger state: the `bookings` table plus the autoincrement primary
key counter (SQLite/Postgres assign `next_id` to the next inserted row). -/
structure Ledger where
  bookings : List Booking
  next_id : Nat
deriving Repr, DecidableEq

/-- The empty database right after `Base.metadata.create_all(engine)`. -/
def Ledger.init : Ledger := ⟨[], 1⟩

/-- `HTTPException(status_code, detail)` raised by the handlers. -/
structure HTTPError where
  status_code : Nat
  detail : String
deriving Repr, DecidableEq

/-- The `Status` enum of `main.py`. -/
inductive Status where
  | pending | approved | rejected | cancelled
deriving Repr, DecidableEq

/-- `Status.value`: the string stored in / compared against the DB column. -/
def Status.val : Status → String
  | .pending => "pending"
  | .approved => "approved"
  | .rejected => "rejected"
  | .cancelled => "cancelled"

/-- The request body schema `BookingIn` (pydantic model), after field
parsing: all four required fields are present and typed. -/
structure BookingIn where
  requester_name : String
  requester_email : String
  start_date : Int
  end_date : Int
  notes : Option String
deriving Repr, DecidableEq

/-- The ASCII whitespace characters stripped by Python `str.strip()`. -/
def isSpaceChar (c : Char) : Bool :=
  c == ' ' || c == '\t' || c == '\n' || c == '\r' || c == '\x0b' || c == '\x0c'

/-- Python `str.strip()`: drop whitespace from both ends of the string. -/
def pyStrip (s : String) : String :=
  ⟨((s.data.dropWhile isSpaceChar).reverse.dropWhile isSpaceChar).reverse⟩

/-- Split a character list on a separator character (every occurrence). -/
def splitOnChar (sep : Char) : List Char → List (List Char)
  | [] => [[]]
  | c :: rest =>
    match splitOnChar sep rest with
    | [] => if c == sep then [[], [c]] else [[c]]
    | h :: t => if c == sep then [] :: h :: t else (c :: h) :: t

/-- Modelled from the spec: the pydantic `EmailStr` validator is library
code outside the repository; the spec only requires `email` well-formed.
We model well-formedness as: exactly one `@` separating a non-empty local
part from a domain made of at least two non-empty dot-separated labels. -/
def emailWellFormed (s : String) : Bool :=
  match splitOnChar '@' s.data with
  | [lp, dom] =>
      !lp.isEmpty && decide (2 ≤ (splitOnChar '.' dom).length)
        && (splitOnChar '.' dom).all (fun p => !p.isEmpty)
  | _ => false

/-- The pydantic validation of `BookingIn`: `requester_email : EmailStr`
must be well-formed and the `check_range` field validator rejects
`end_date <= start_date`.  `requester_name : str` carries no constraint
(any string, the empty string included, parses). -/
def BookingIn.valid (p : BookingIn) : Bool :=
  emailWellFormed p.requester_email && decide (p.start_date < p.end_date)

/-- The FastAPI/pydantic request-validation error (HTTP 422). -/
def validationError : HTTPError :=
  ⟨422, "end_date must be after start_date (checkout day.) or malformed field"⟩

/-- `raise HTTPException(401, "Unauthorized (bad admin secret)")`. -/
def unauthorizedError : HTTPError := ⟨401, "Unauthorized (bad admin secret)"⟩

/-- `raise HTTPException(404, "Request not found")`. -/
def notFoundError : HTTPError := ⟨404, "Request not found"⟩

/-- `raise HTTPException(409, "Date conflict with an existing approved booking")`. -/
def conflictError : HTTPError :=
  ⟨409, "Date conflict with an existing approved booking"⟩

/-- The approve-path invalid-transition error: `HTTPException(409,
f"Cannot approve request in status ...")` with the current status spliced in. -/
def approveInvalidError (current : String) : HTTPError :=
  ⟨409, "Cannot approve request in status " ++ current⟩

/-- The reject-path invalid-transition error. -/
def rejectInvalidError (current : String) : HTTPError :=
  ⟨409, "Cannot reject request in status " ++ current⟩

/-- The cancel-path invalid-transition error. -/
def cancelInvalidError (current : String) : HTTPError :=
  ⟨409, "Only approved bookings can be cancelled (current: " ++ current ++ ")"⟩

/-- Helper `overlaps` of `main.py`: half-open interval overlap test. -/
def overlaps (a_start a_end b_start b_end : Int) : Bool :=
  decide (a_end > b_start) && decide (b_end > a_start)

/-- `require_admin`: both the configured `ADMIN_SECRET` and the supplied
header (each replaced by `""` when falsy) are stripped and compared. -/
def require_admin (adminSecret : String) (secret : Option String) : Bool :=
  pyStrip (secret.getD "") == pyStrip adminSecret

/-- `create_request` (`POST /api/requests`): pydantic validation, then an
insert of a fresh `pending` row.  The stored name is stripped; empty notes
collapse to `NULL` (`payload.notes or None`).  Returns the new ledger and
the created row. -/
def create_request (now : Int) (p : BookingIn) (L : Ledger) :
    Ledger × Except HTTPError Booking :=
  if !p.valid then (L, .error validationError)
  else
    let row : Booking :=
      { id := L.next_id
        requester_name := pyStrip p.requester_name
        requester_email := p.requester_email
        start_date := p.start_date
        end_date := p.end_date
        status := "pending"
        notes := match p.notes with | some s => if s = "" then none else some s | none => none
        created_at := now
        decision_at := none
        decided_by := none }
    (⟨L.bookings ++ [row], L.next_id + 1⟩, .ok row)

/-- The SQL ordering `ORDER BY start_date ASC, id ASC` as a Boolean
comparison for `mergeSort`. -/
def bookingLe (a b : Booking) : Bool :=
  decide (a.start_date < b.start_date)
    || (decide (a.start_date = b.start_date) && decide (a.id ≤ b.id))

/-- `list_requests` (`GET /api/requests`): admin only; `active=true`
filters to pending/approved, else an exact-status filter when given;
ordered by `(start_date, id)`.  (`if active:` is a Python truthiness
test, so `active=false` falls through to the status branch.) -/
def list_requests (adminSecret : String) (secret : Option String)
    (status : Option Status) (active : Option Bool) (L : Ledger) :
    Except HTTPError (List Booking) :=
  if !require_admin adminSecret secret then .error unauthorizedError
  else
    let q :=
      if active = some true then
        L.bookings.filter (fun b => b.status == "pending" || b.status == "approved")
      else
        match status with
        | some s => L.bookings.filter (fun b => b.status == s.val)
        | none => L.bookings
    .ok (q.mergeSort bookingLe)

/-- `approved_bookings` (`GET /api/bookings/approved`), public: only the
`approved` rows, same ordering. -/
def approved_bookings (L : Ledger) : List Booking :=
  (L.bookings.filter (fun b => b.status == "approved")).mergeSort bookingLe

/-- `approve_request` (`POST /api/requests/.../approve`): admin check,
primary-key lookup, `pending` precondition, then the conflict scan over
currently-approved rows with the half-open test
`existing.end_date > row.start_date AND existing.start_date < row.end_date`;
on success the row becomes `approved` with `decision_at = now` and
`decided_by = "Mom"`. -/
def approve_request (adminSecret : String) (secret : Option String)
    (now : Int) (req_id : Nat) (L : Ledger) :
    Ledger × Except HTTPError Booking :=
  if !require_admin adminSecret secret then (L, .error unauthorizedError)
  else
    match L.bookings.find? (fun b => b.id == req_id) with
    | none => (L, .error notFoundError)
    | some row =>
      if row.status != "pending" then (L, .error (approveInvalidError row.status))
      else
        let conflicts := L.bookings.filter (fun b =>
          b.status == "approved" && decide (b.end_date > row.start_date)
            && decide (b.start_date < row.end_date))
        if !conflicts.isEmpty then (L, .error conflictError)
        else
          let row' := { row with
            status := "approved", decision_at := some now, decided_by := some "Mom" }
          (⟨L.bookings.map (fun b => if b.id == req_id then row' else b), L.next_id⟩,
            .ok row')

/-- `reject_request` (`POST /api/requests/.../reject`): like approve but
with no conflict scan; the row becomes `rejected`. -/
def reject_request (adminSecret : String) (secret : Option String)
    (now : Int) (req_id : Nat) (L : Ledger) :
    Ledger × Except HTTPError Booking :=
  if !require_admin adminSecret secret then (L, .error unauthorizedError)
  else
    match L.bookings.find? (fun b => b.id == req_id) with
    | none => (L, .error notFoundError)
    | some row =>
      if row.status != "pending" then (L, .error (rejectInvalidError row.status))
      else
        let row' := { row with
          status := "rejected", decision_at := some now, decided_by := some "Mom" }
        (⟨L.bookings.map (fun b => if b.id == req_id then row' else b), L.next_id⟩,
          .ok row')

/-- `cancel_request` (`POST /api/requests/.../cancel`): requires current
status `approved`; the row becomes `cancelled` with `decision_at = now`,
`decided_by = "Mom"`.  The handler takes no request body (the `CancelIn`
payload and the notes-append line are commented out in the source), so
`notes` is left untouched. -/
def cancel_request (adminSecret : String) (secret : Option String)
    (now : Int) (req_id : Nat) (L : Ledger) :
    Ledger × Except HTTPError Booking :=
  if !require_admin adminSecret secret then (L, .error unauthorizedError)
  else
    match L.bookings.find? (fun b => b.id == req_id) with
    | none => (L, .error notFoundError)
    | some row =>
      if row.status != "approved" then (L, .error (cancelInvalidError row.status))
      else
        let row' := { row with
          status := "cancelled", decision_at := some now, decided_by := some "Mom" }
        (⟨L.bookings.map (fun b => if b.id == req_id then row' else b), L.next_id⟩,
          .ok row')

/-- The retention window: `timedelta(days=15)`, in the day units of our
`Int` timestamps. -/
def retentionDays : Int := 15

/-- The deletion predicate of `cleanup_old_requests`: status `cancelled`
or `rejected` and `decision_at < now - 15 days`.  A SQL comparison with a
`NULL` `decision_at` is not true, so such rows are kept. -/
def doomed (now : Int) (b : Booking) : Bool :=
  (b.status == "cancelled" || b.status == "rejected")
    && match b.decision_at with
       | some d => decide (d < now - retentionDays)
       | none => false

/-- `cleanup_old_requests`: hard-deletes every doomed row; the returned
count is the deleted row count (`Query.delete` returns it). -/
def cleanup_old_requests (now : Int) (L : Ledger) : Ledger × Nat :=
  (⟨L.bookings.filter (fun b => !doomed now b), L.next_id⟩,
    (L.bookings.filter (doomed now)).length)

/-- The reachable ledger states: the empty initial database followed by
any sequence of route-handler calls (with arbitrary supplied secrets,
clocks and payloads; a handler that raises leaves the ledger unchanged,
which the `.1` projection already captures). -/
inductive Reachable (adminSecret : String) : Ledger → Prop where
  | init : Reachable adminSecret Ledger.init
  | submit (L : Ledger) (now : Int) (p : BookingIn) :
      Reachable adminSecret L → Reachable adminSecret (create_request now p L).1
  | approve (L : Ledger) (secret : Option String) (now : Int) (req_id : Nat) :
      Reachable adminSecret L →
      Reachable adminSecret (approve_request adminSecret secret now req_id L).1
  | reject (L : Ledger) (secret : Option String) (now : Int) (req_id : Nat) :
      Reachable adminSecret L →
      Reachable adminSecret (reject_request adminSecret secret now req_id L).1
  | cancel (L : Ledger) (secret : Option String) (now : Int) (req_id : Nat) :
      Reachable adminSecret L →
      Reachable adminSecret (cancel_request adminSecret secret now req_id L).1
  | cleanup (L : Ledger) (now : Int) :
      Reachable adminSecret L → Reachable adminSecret (cleanup_old_requests now L).1

/-! ## The approved-non-overlap invariant -/

/-- Pairwise non-overlap of the approved rows, half-open semantics:
for any two distinct (by id) approved rows,
`A.end_date ≤ B.start_date ∨ B.end_date ≤ A.start_date`. -/
def NoOverlapApproved (bs : List Booking) : Prop :=
  ∀ a ∈ bs, ∀ b ∈ bs, a.status = "approved" → b.status = "approved" →
    a.id ≠ b.id → a.end_date ≤ b.start_date ∨ b.end_date ≤ a.start_date

/-- The ledger well-formedness invariant: every id is below the
autoincrement counter, ids are pairwise distinct, and the approved rows
are pairwise non-overlapping. -/
def LedgerInv (L : Ledger) : Prop :=
  (∀ b ∈ L.bookings, b.id < L.next_id) ∧
  L.bookings.Pairwise (fun a b => a.id ≠ b.id) ∧
  NoOverlapApproved L.bookings

theorem find?_id {bs : List Booking} {i : Nat} {row : Booking}
    (h : bs.find? (fun b => b.id == i) = some row) : row ∈ bs ∧ row.id = i :=
  ⟨List.mem_of_find?_eq_some h, by simpa using List.find?_some h⟩

theorem update_id_eq {i : Nat} {row' : Booking} (hid : row'.id = i) (b : Booking) :
    (if b.id == i then row' else b).id = b.id := by
  by_cases h : b.id = i
  · simp [h, hid]
  · simp [h]

theorem noOverlap_update_nonapproved {bs : List Booking} {i : Nat} {row' : Booking}
    (hst : row'.status ≠ "approved") (h : NoOverlapApproved bs) :
    NoOverlapApproved (bs.map (fun b => if b.id == i then row' else b)) := by
  intro a ha b hb hsa hsb hne
  rcases List.mem_map.1 ha with ⟨a0, ha0, rfl⟩
  rcases List.mem_map.1 hb with ⟨b0, hb0, rfl⟩
  by_cases h1 : a0.id = i
  · simp only [h1, beq_self_eq_true, if_true] at hsa
    exact absurd hsa hst
  · by_cases h2 : b0.id = i
    · simp only [h2, beq_self_eq_true, if_true] at hsb
      exact absurd hsb hst
    · simp only [beq_iff_eq, h1, h2, if_false] at hsa hsb hne ⊢
      exact h a0 ha0 b0 hb0 hsa hsb hne

theorem noOverlap_update_approve {bs : List Booking} {row row' : Booking} {i : Nat}
    (hs : row'.start_date = row.start_date) (he : row'.end_date = row.end_date)
    (hconf : ∀ b ∈ bs, b.status = "approved" →
        b.end_date ≤ row.start_date ∨ row.end_date ≤ b.start_date)
    (h : NoOverlapApproved bs) :
    NoOverlapApproved (bs.map (fun b => if b.id == i then row' else b)) := by
  intro a ha b hb hsa hsb hne
  rcases List.mem_map.1 ha with ⟨a0, ha0, rfl⟩
  rcases List.mem_map.1 hb with ⟨b0, hb0, rfl⟩
  by_cases h1 : a0.id = i <;> by_cases h2 : b0.id = i
  · exfalso
    simp only [beq_iff_eq, h1, h2, if_true] at hne
    exact hne rfl
  · simp only [beq_iff_eq, h1, h2, if_true, if_false] at hsb hne ⊢
    rcases hconf b0 hb0 hsb with hc | hc
    · exact Or.inr (by omega)
    · exact Or.inl (by omega)
  · simp only [beq_iff_eq, h1, h2, if_true, if_false] at hsa hne ⊢
    rcases hconf a0 ha0 hsa with hc | hc
    · exact Or.inl (by omega)
    · exact Or.inr (by omega)
  · simp only [beq_iff_eq, h1, h2, if_false] at hsa hsb hne ⊢
    exact h a0 ha0 b0 hb0 hsa hsb hne

theorem pairwise_id_update {bs : List Booking} {i : Nat} {row' : Booking}
    (hid : row'.id = i) (h : bs.Pairwise (fun a b => a.id ≠ b.id)) :
    (bs.map (fun b => if b.id == i then row' else b)).Pairwise
      (fun a b => a.id ≠ b.id) := by
  refine List.Pairwise.map _ (fun a b hab => ?_) h
  rw [update_id_eq hid, update_id_eq hid]
  exact hab

theorem inv_create (now : Int) (p : BookingIn) {L : Ledger} (h : LedgerInv L) :
    LedgerInv (create_request now p L).1 := by
  obtain ⟨hlt, huniq, hno⟩ := h
  unfold create_request
  split
  · exact ⟨hlt, huniq, hno⟩
  · refine ⟨?_, ?_, ?_⟩
    · intro b hb
      rcases List.mem_append.1 hb with hb | hb
      · exact Nat.lt_succ_of_lt (hlt b hb)
      · simp only [List.mem_singleton] at hb
        subst hb
        exact Nat.lt_succ_self _
    · rw [List.pairwise_append]
      refine ⟨huniq, List.pairwise_singleton _ _, ?_⟩
      intro a ha b hb
      simp only [List.mem_singleton] at hb
      subst hb
      exact Nat.ne_of_lt (hlt a ha)
    · intro a ha b hb hsa hsb hne
      rcases List.mem_append.1 ha with ha | ha
      · rcases List.mem_append.1 hb with hb | hb
        · exact hno a ha b hb hsa hsb hne
        · simp only [List.mem_singleton] at hb
          subst hb
          simp at hsb
      · simp only [List.mem_singleton] at ha
        subst ha
        simp at hsa

theorem inv_approve (adminSecret : String) (secret : Option String) (now : Int)
    (req_id : Nat) {L : Ledger} (h : LedgerInv L) :
    LedgerInv (approve_request adminSecret secret now req_id L).1 := by
  obtain ⟨hlt, huniq, hno⟩ := h
  simp only [approve_request]
  split
  · exact ⟨hlt, huniq, hno⟩
  split
  · exact ⟨hlt, huniq, hno⟩
  next row hfind =>
    split
    · exact ⟨hlt, huniq, hno⟩
    next hpend =>
      split
      · exact ⟨hlt, huniq, hno⟩
      next hconf =>
        obtain ⟨hrowmem, hrowid⟩ := find?_id hfind
        have hconf' : ∀ b ∈ L.bookings, b.status = "approved" →
            b.end_date ≤ row.start_date ∨ row.end_date ≤ b.start_date := by
          have h' : ∀ x ∈ L.bookings, x.status = "approved" →
              row.start_date < x.end_date → row.end_date ≤ x.start_date := by
            simpa using hconf
          intro b hb hbs
          rcases lt_or_le row.start_date b.end_date with hc | hc
          · exact Or.inr (h' b hb hbs hc)
          · exact Or.inl hc
        refine ⟨?_, ?_, ?_⟩
        · intro b hb
          rcases List.mem_map.1 hb with ⟨b0, hb0, rfl⟩
          by_cases hcase : b0.id = req_id
          · simp only [hcase, beq_self_eq_true, if_true]
            exact hlt row hrowmem
          · simp only [beq_iff_eq, hcase, if_false]
            exact hlt b0 hb0
        · exact pairwise_id_update hrowid huniq
        · exact noOverlap_update_approve rfl rfl hconf' hno

theorem inv_reject (adminSecret : String) (secret : Option String) (now : Int)
    (req_id : Nat) {L : Ledger} (h : LedgerInv L) :
    LedgerInv (reject_request adminSecret secret now req_id L).1 := by
  obtain ⟨hlt, huniq, hno⟩ := h
  simp only [reject_request]
  split
  · exact ⟨hlt, huniq, hno⟩
  split
  · exact ⟨hlt, huniq, hno⟩
  next row hfind =>
    split
    · exact ⟨hlt, huniq, hno⟩
    next hpend =>
      obtain ⟨hrowmem, hrowid⟩ := find?_id hfind
      refine ⟨?_, ?_, ?_⟩
      · intro b hb
        rcases List.mem_map.1 hb with ⟨b0, hb0, rfl⟩
        by_cases hcase : b0.id = req_id
        · simp only [hcase, beq_self_eq_true, if_true]
          exact hlt row hrowmem
        · simp only [beq_iff_eq, hcase, if_false]
          exact hlt b0 hb0
      · exact pairwise_id_update hrowid huniq
      · exact noOverlap_update_nonapproved (by simp) hno

theorem inv_cancel (adminSecret : String) (secret : Option String) (now : Int)
    (req_id : Nat) {L : Ledger} (h : LedgerInv L) :
    LedgerInv (cancel_request adminSecret secret now req_id L).1 := by
  obtain ⟨hlt, huniq, hno⟩ := h
  simp only [cancel_request]
  split
  · exact ⟨hlt, huniq, hno⟩
  split
  · exact ⟨hlt, huniq, hno⟩
  next row hfind =>
    split
    · exact ⟨hlt, huniq, hno⟩
    next happ =>
      obtain ⟨hrowmem, hrowid⟩ := find?_id hfind
      refine ⟨?_, ?_, ?_⟩
      · intro b hb
        rcases List.mem_map.1 hb with ⟨b0, hb0, rfl⟩
        by_cases hcase : b0.id = req_id
        · simp only [hcase, beq_self_eq_true, if_true]
          exact hlt row hrowmem
        · simp only [beq_iff_eq, hcase, if_false]
          exact hlt b0 hb0
      · exact pairwise_id_update hrowid huniq
      · exact noOverlap_update_nonapproved (by simp) hno

theorem inv_cleanup (now : Int) {L : Ledger} (h : LedgerInv L) :
    LedgerInv (cleanup_old_requests now L).1 := by
  obtain ⟨hlt, huniq, hno⟩ := h
  refine ⟨?_, ?_, ?_⟩
  · intro b hb
    exact hlt b (List.mem_filter.1 hb).1
  · exact List.Pairwise.sublist (List.filter_sublist _) huniq
  · intro a ha b hb hsa hsb hne
    exact hno a (List.mem_filter.1 ha).1 b (List.mem_filter.1 hb).1 hsa hsb hne

theorem reachable_inv {adminSecret : String} {L : Ledger}
    (h : Reachable adminSecret L) : LedgerInv L := by
  induction h with
  | init =>
      refine ⟨?_, ?_, ?_⟩
      · intro b hb; simp [Ledger.init] at hb
      · simp [Ledger.init]
      · intro a ha; simp [Ledger.init] at ha
  | submit L now p _ ih => exact inv_create now p ih
  | approve L secret now req_id _ ih => exact inv_approve adminSecret secret now req_id ih
  | reject L secret now req_id _ ih => exact inv_reject adminSecret secret now req_id ih
  | cancel L secret now req_id _ ih => exact inv_cancel adminSecret secret now req_id ih
  | cleanup L now _ ih => exact inv_cleanup now ih

/-! ## Concrete demonstration data (the scenarios of spec section 8) -/

def aliceIn : BookingIn := ⟨"Alice", "alice@example.com", 10, 14, none⟩

def bobIn : BookingIn := ⟨"Bob", "bob@example.com", 13, 17, none⟩

def demoL1 : Ledger := (create_request 0 aliceIn Ledger.init).1

def demoL2 : Ledger := (create_request 0 bobIn demoL1).1

def demoL3 : Ledger := (approve_request "s3cret" (some "s3cret") 1 1 demoL2).1

def bobRow : Booking := ⟨2, "Bob", "bob@example.com", 13, 17, "pending", none, 0, none, none⟩

def aliceApproved : Booking :=
  ⟨1, "Alice", "alice@example.com", 10, 14, "approved", none, 0, some 1, some "Mom"⟩

/-! ## The claims -/

/-- Claim C1: in every reachable ledger state, any two distinct `approved`
requests A and B satisfy `A.end_date ≤ B.start_date ∨ B.end_date ≤
A.start_date` (half-open non-overlap).  Every state produced by a
successful `approve` is again reachable, so every successful approve
preserves pairwise non-overlap of the approved set. -/
theorem reachable_approved_nonoverlap {adminSecret : String} {L : Ledger}
    (h : Reachable adminSecret L) : NoOverlapApproved L.bookings :=
  (reachable_inv h).2.2

/-- Claim C1 witness: the invariant holds at the concrete reachable state with
Alice approved (dates 10–14) and Bob pending (13–17). -/
theorem reachable_approved_nonoverlap_witness : NoOverlapApproved demoL3.bookings :=
  reachable_approved_nonoverlap
    (Reachable.approve demoL2 (some "s3cret") 1 1
      (Reachable.submit demoL1 0 bobIn
        (Reachable.submit Ledger.init 0 aliceIn Reachable.init)))

/-- Claim C2: for a `pending` request (with a passing admin check),
`approve` fails with `Conflict` iff some currently-`approved` request
satisfies `existing.end_date > candidate.start_date ∧
candidate.end_date > existing.start_date`; on such a failure the ledger
is returned unchanged (no request is mutated). -/
theorem approve_conflict_iff (adminSecret : String) (secret : Option String)
    (now : Int) (req_id : Nat) (L : Ledger) (row : Booking)
    (hadmin : require_admin adminSecret secret = true)
    (hfind : L.bookings.find? (fun b => b.id == req_id) = some row)
    (hpend : row.status = "pending") :
    ((approve_request adminSecret secret now req_id L).2 = .error conflictError ↔
      ∃ b ∈ L.bookings, b.status = "approved" ∧
        b.end_date > row.start_date ∧ row.end_date > b.start_date) ∧
    ((approve_request adminSecret secret now req_id L).2 = .error conflictError →
      (approve_request adminSecret secret now req_id L).1 = L) := by
  simp [approve_request, hadmin, hfind, hpend]
  split
  next hex =>
    simp
    exact hex
  next hnex =>
    simp
    intro b hb hbs h1
    by_contra hlt2
    push_neg at hlt2
    exact hnex ⟨b, hb, hbs, h1, hlt2⟩

/-- Claim C2 witness: approving pending Bob (13–17) against approved Alice
(10–14) fails with `Conflict` (13 < 14) and the ledger is unchanged. -/
theorem approve_conflict_iff_witness :
    (approve_request "s3cret" (some "s3cret") 2 2 demoL3).2 = .error conflictError ∧
    (approve_request "s3cret" (some "s3cret") 2 2 demoL3).1 = demoL3 := by
  have h := approve_conflict_iff "s3cret" (some "s3cret") 2 2 demoL3 bobRow
    (by decide) (by decide) (by decide)
  have hc : (approve_request "s3cret" (some "s3cret") 2 2 demoL3).2 =
      .error conflictError :=
    h.1.mpr ⟨aliceApproved, by decide, by decide, by decide, by decide⟩
  exact ⟨hc, h.2 hc⟩

/-- Claim C6: for every possible current-status string, the `Conflict` error of
the approve date-overlap check is a different error value from the
approve invalid-transition error, so the caller can tell them apart
(both carry HTTP 409, but the payloads differ). -/
theorem conflict_error_distinct (s : String) :
    conflictError ≠ approveInvalidError s := by
  intro h
  have h2 := congrArg (fun e => e.detail) h
  simp only [conflictError, approveInvalidError] at h2
  have h3 := congrArg String.data h2
  rw [String.data_append] at h3
  have h4 := congrArg List.head? h3
  simp at h4

/-- Claim C6 witness: the two errors differ at the concrete status
`approved`. -/
theorem conflict_error_distinct_witness :
    conflictError ≠ approveInvalidError "approved" :=
  conflict_error_distinct "approved"

def demoAlicePending : Booking :=
  ⟨1, "Alice", "alice@example.com", 10, 14, "pending", none, 0, none, none⟩

/-- Claim C3 counterexample: a submission whose requester_name is the
whitespace-only string "  " does not fail: it is accepted and creates a
`pending` row whose stored (stripped) name is empty. -/
theorem create_blank_name_accepted :
    (create_request 0 ⟨"  ", "a@example.com", 0, 1, none⟩ Ledger.init).2 =
      .ok ⟨1, "", "a@example.com", 0, 1, "pending", none, 0, none, none⟩ := rfl

/-- Claim C3 (amended): submission fails with the validation error iff the
email is malformed or `end_date ≤ start_date`; `requester_name` is not
validated (empty or whitespace-only names are accepted); on success the
created request has status `pending` and is inserted in the ledger. -/
theorem create_request_spec (now : Int) (p : BookingIn) (L : Ledger) :
    ((create_request now p L).2 = .error validationError ↔
      (emailWellFormed p.requester_email = false ∨ p.end_date ≤ p.start_date)) ∧
    (∀ row, (create_request now p L).2 = .ok row →
      row.status = "pending" ∧ row ∈ (create_request now p L).1.bookings) := by
  have hval : (p.valid = true) ↔
      (emailWellFormed p.requester_email = true ∧ p.start_date < p.end_date) := by
    simp [BookingIn.valid]
  unfold create_request
  split
  next hinv =>
    have hv : ¬ (p.valid = true) := by simpa using hinv
    rw [hval] at hv
    push_neg at hv
    refine ⟨⟨fun _ => ?_, fun _ => rfl⟩, fun row h => by simp at h⟩
    by_cases he : emailWellFormed p.requester_email = true
    · right
      have := hv he
      omega
    · left
      simpa using he
  next hok =>
    have hv : p.valid = true := by simpa using hok
    rw [hval] at hv
    refine ⟨⟨fun h => by simp at h, fun h => ?_⟩, fun row h => ?_⟩
    · exfalso
      rcases h with h | h
      · rw [hv.1] at h
        simp at h
      · omega
    · simp only [Except.ok.injEq] at h
      subst h
      exact ⟨rfl, by simp⟩

/-- Claim C3 witness: a valid submission with `end_date = start_date` fails with
the validation error, and Alice's valid submission yields a pending row. -/
theorem create_request_spec_witness :
    (create_request 0 ⟨"Alice", "alice@example.com", 10, 10, none⟩ Ledger.init).2 =
      .error validationError ∧
    demoAlicePending.status = "pending" := by
  refine ⟨(create_request_spec 0 ⟨"Alice", "alice@example.com", 10, 10, none⟩
    Ledger.init).1.mpr (Or.inr (by decide)), ?_⟩
  exact ((create_request_spec 0 aliceIn Ledger.init).2 demoAlicePending rfl).1

def carolIn : BookingIn := ⟨"Carol", "carol@example.com", 20, 22, some "prior note"⟩

def carolL1 : Ledger := (create_request 0 carolIn Ledger.init).1

def carolL2 : Ledger := (approve_request "s3cret" (some "s3cret") 1 1 carolL1).1

def carolApproved : Booking :=
  ⟨1, "Carol", "carol@example.com", 20, 22, "approved", some "prior note", 0,
    some 1, some "Mom"⟩

/-- Claim C4 counterexample: cancelling approved Carol succeeds but the returned
row's notes are exactly the prior notes — the handler accepts no reason
argument, so no annotation (e.g. "plans changed") is ever appended. -/
theorem cancel_no_reason_appended :
    (cancel_request "s3cret" (some "s3cret") 3 1 carolL2).2 =
      .ok ⟨1, "Carol", "carol@example.com", 20, 22, "cancelled",
        some "prior note", 0, some 3, some "Mom"⟩ := rfl

/-- Claim C4 (amended): cancel on an `approved` request (with a passing admin
check) succeeds, setting status `cancelled`, `decision_at = now` and
`decided_by = "Mom"`; but the handler accepts no cancellation reason and
the row's `notes` are left exactly unchanged (nothing is appended). -/
theorem cancel_request_spec (adminSecret : String) (secret : Option String)
    (now : Int) (req_id : Nat) (L : Ledger) (row : Booking)
    (hadmin : require_admin adminSecret secret = true)
    (hfind : L.bookings.find? (fun b => b.id == req_id) = some row)
    (happ : row.status = "approved") :
    (cancel_request adminSecret secret now req_id L).2 =
      .ok { row with
        status := "cancelled", decision_at := some now, decided_by := some "Mom" } ∧
    ({ row with
        status := "cancelled", decision_at := some now, decided_by := some "Mom" } :
        Booking).notes = row.notes := by
  refine ⟨?_, rfl⟩
  simp [cancel_request, hadmin, hfind, happ]

/-- Claim C4 witness: the concrete cancel of approved Carol at clock 3. -/
theorem cancel_request_spec_witness :
    (cancel_request "s3cret" (some "s3cret") 3 1 carolL2).2 =
      .ok ⟨1, "Carol", "carol@example.com", 20, 22, "cancelled",
        some "prior note", 0, some 3, some "Mom"⟩ :=
  (cancel_request_spec "s3cret" (some "s3cret") 3 1 carolL2 carolApproved
    (by decide) (by decide) (by decide)).1

/-- Claim C5: with a passing admin check: an unknown id makes approve, reject
and cancel fail with `NotFound` (404) and no state change; a known id in
the wrong source status makes them fail with the 409 invalid-transition
error whose message contains the current status, again with no state
change; and `NotFound` is a different error from every invalid-transition
error. -/
theorem invalid_transition_spec (adminSecret : String) (secret : Option String)
    (now : Int) (req_id : Nat) (L : Ledger) (row : Booking)
    (hadmin : require_admin adminSecret secret = true) :
    (L.bookings.find? (fun b => b.id == req_id) = none →
      approve_request adminSecret secret now req_id L = (L, .error notFoundError) ∧
      reject_request adminSecret secret now req_id L = (L, .error notFoundError) ∧
      cancel_request adminSecret secret now req_id L = (L, .error notFoundError)) ∧
    (L.bookings.find? (fun b => b.id == req_id) = some row →
      (row.status ≠ "pending" →
        approve_request adminSecret secret now req_id L =
          (L, .error (approveInvalidError row.status)) ∧
        reject_request adminSecret secret now req_id L =
          (L, .error (rejectInvalidError row.status))) ∧
      (row.status ≠ "approved" →
        cancel_request adminSecret secret now req_id L =
          (L, .error (cancelInvalidError row.status)))) ∧
    ((approveInvalidError row.status).detail =
      "Cannot approve request in status " ++ row.status ∧
     (rejectInvalidError row.status).detail =
      "Cannot reject request in status " ++ row.status ∧
     (cancelInvalidError row.status).detail =
      "Only approved bookings can be cancelled (current: " ++ row.status ++ ")") ∧
    notFoundError ≠ approveInvalidError row.status ∧
    notFoundError ≠ rejectInvalidError row.status ∧
    notFoundError ≠ cancelInvalidError row.status := by
  refine ⟨fun hnone => ⟨?_, ?_, ?_⟩, fun hsome => ⟨fun hnp => ⟨?_, ?_⟩, fun hna => ?_⟩,
    ⟨rfl, rfl, rfl⟩, ?_, ?_, ?_⟩
  · simp [approve_request, hadmin, hnone]
  · simp [reject_request, hadmin, hnone]
  · simp [cancel_request, hadmin, hnone]
  · simp [approve_request, hadmin, hsome, hnp]
  · simp [reject_request, hadmin, hsome, hnp]
  · simp [cancel_request, hadmin, hsome, hna]
  · intro h
    exact absurd (congrArg (fun e => e.status_code) h)
      (by simp [notFoundError, approveInvalidError])
  · intro h
    exact absurd (congrArg (fun e => e.status_code) h)
      (by simp [notFoundError, rejectInvalidError])
  · intro h
    exact absurd (congrArg (fun e => e.status_code) h)
      (by simp [notFoundError, cancelInvalidError])

/-- Claim C5 witness: on the demo state (Alice approved, Bob pending):
approve of unknown id 99 gives NotFound; re-approving Alice gives the
invalid-transition error carrying "approved"; cancelling pending Bob
gives the invalid-transition error carrying "pending". -/
theorem invalid_transition_spec_witness :
    approve_request "s3cret" (some "s3cret") 5 99 demoL3 =
      (demoL3, .error notFoundError) ∧
    approve_request "s3cret" (some "s3cret") 5 1 demoL3 =
      (demoL3, .error (approveInvalidError "approved")) ∧
    cancel_request "s3cret" (some "s3cret") 5 2 demoL3 =
      (demoL3, .error (cancelInvalidError "pending")) := by
  refine ⟨?_, ?_, ?_⟩
  · exact ((invalid_transition_spec "s3cret" (some "s3cret") 5 99 demoL3 bobRow
      (by decide)).1 (by decide)).1
  · exact (((invalid_transition_spec "s3cret" (some "s3cret") 5 1 demoL3 aliceApproved
      (by decide)).2.1 (by decide)).1 (by decide)).1
  · exact ((invalid_transition_spec "s3cret" (some "s3cret") 5 2 demoL3 bobRow
      (by decide)).2.1 (by decide)).2 (by decide)

/-- Claim C9: the admin identity check succeeds iff the supplied secret equals
the configured value after stripping whitespace from both; when it fails,
list, approve, reject and cancel all return the 401 `Unauthorized` error
with the ledger untouched — before any lookup or mutation, whatever the
ledger contains — and that error differs from `NotFound` and `Conflict`. -/
theorem require_admin_spec (adminSecret : String) (secret : Option String)
    (now : Int) (req_id : Nat) (st : Option Status) (act : Option Bool) (L : Ledger) :
    (require_admin adminSecret secret = true ↔
      pyStrip (secret.getD "") = pyStrip adminSecret) ∧
    (require_admin adminSecret secret = false →
      list_requests adminSecret secret st act L = .error unauthorizedError ∧
      approve_request adminSecret secret now req_id L = (L, .error unauthorizedError) ∧
      reject_request adminSecret secret now req_id L = (L, .error unauthorizedError) ∧
      cancel_request adminSecret secret now req_id L = (L, .error unauthorizedError)) ∧
    unauthorizedError ≠ notFoundError ∧ unauthorizedError ≠ conflictError := by
  refine ⟨by simp [require_admin], fun h => ⟨?_, ?_, ?_, ?_⟩, ?_, ?_⟩
  · simp [list_requests, h]
  · simp [approve_request, h]
  · simp [reject_request, h]
  · simp [cancel_request, h]
  · intro heq
    exact absurd (congrArg (fun e => e.status_code) heq)
      (by simp [unauthorizedError, notFoundError])
  · intro heq
    exact absurd (congrArg (fun e => e.status_code) heq)
      (by simp [unauthorizedError, conflictError])

/-- Claim C9 witness: with the wrong secret every admin operation on the demo
state returns `Unauthorized` and leaves the ledger unchanged. -/
theorem require_admin_spec_witness :
    list_requests "s3cret" (some "wrong") none none demoL3 =
      .error unauthorizedError ∧
    approve_request "s3cret" (some "wrong") 9 2 demoL3 =
      (demoL3, .error unauthorizedError) ∧
    reject_request "s3cret" (some "wrong") 9 2 demoL3 =
      (demoL3, .error unauthorizedError) ∧
    cancel_request "s3cret" (some "wrong") 9 2 demoL3 =
      (demoL3, .error unauthorizedError) :=
  (require_admin_spec "s3cret" (some "wrong") 9 2 none none demoL3).2.1 (by decide)

/-- Claim C10: whenever approve, reject or cancel succeeds — whatever secret the
caller supplied — the returned row records `decided_by = "Mom"`, a fixed
constant; no other caller identity is ever recorded. -/
theorem decided_by_is_Mom (adminSecret : String) (secret : Option String)
    (now : Int) (req_id : Nat) (L : Ledger) (row : Booking) :
    ((approve_request adminSecret secret now req_id L).2 = .ok row →
      row.decided_by = some "Mom") ∧
    ((reject_request adminSecret secret now req_id L).2 = .ok row →
      row.decided_by = some "Mom") ∧
    ((cancel_request adminSecret secret now req_id L).2 = .ok row →
      row.decided_by = some "Mom") := by
  refine ⟨fun h => ?_, fun h => ?_, fun h => ?_⟩
  · simp only [approve_request] at h
    split at h
    · simp at h
    · split at h
      · simp at h
      · split at h
        · simp at h
        · split at h
          · simp at h
          · simp only [Except.ok.injEq] at h
            subst h
            rfl
  · simp only [reject_request] at h
    split at h
    · simp at h
    · split at h
      · simp at h
      · split at h
        · simp at h
        · simp only [Except.ok.injEq] at h
          subst h
          rfl
  · simp only [cancel_request] at h
    split at h
    · simp at h
    · split at h
      · simp at h
      · split at h
        · simp at h
        · simp only [Except.ok.injEq] at h
          subst h
          rfl

/-- Claim C10 witness: the concrete successful approve of Alice records
`decided_by = "Mom"`. -/
theorem decided_by_is_Mom_witness : aliceApproved.decided_by = some "Mom" :=
  (decided_by_is_Mom "s3cret" (some "s3cret") 1 1 demoL2 aliceApproved).1 rfl

theorem doomed_iff (now : Int) (b : Booking) :
    doomed now b = true ↔ ((b.status = "cancelled" ∨ b.status = "rejected") ∧
      (match b.decision_at with
       | some d => d < now - retentionDays
       | none => False)) := by
  cases hd : b.decision_at <;> simp [doomed, hd]

/-- Claim C7: a row is kept by cleanup iff it is not both (`cancelled` or
`rejected`) and decided strictly earlier than `now` minus the 15-day
retention (a NULL `decision_at` is never deleted); the returned count is
the number of deleted rows; and a second cleanup run under the same clock
deletes zero rows. -/
theorem cleanup_spec (now : Int) (L : Ledger) :
    (∀ b, b ∈ (cleanup_old_requests now L).1.bookings ↔
      (b ∈ L.bookings ∧ ¬((b.status = "cancelled" ∨ b.status = "rejected") ∧
        (match b.decision_at with
         | some d => d < now - retentionDays
         | none => False)))) ∧
    (cleanup_old_requests now L).2 = (L.bookings.filter (doomed now)).length ∧
    (cleanup_old_requests now (cleanup_old_requests now L).1).2 = 0 := by
  refine ⟨fun b => ?_, rfl, ?_⟩
  · simp only [cleanup_old_requests, List.mem_filter, Bool.not_eq_true']
    rw [← doomed_iff now b]
    simp
  · simp only [cleanup_old_requests, List.filter_filter]
    have h : ∀ bs : List Booking,
        bs.filter (fun a => doomed now a && !doomed now a) = [] := by
      intro bs
      rw [List.filter_eq_nil_iff]
      intro a _
      cases doomed now a <;> simp
    rw [h]
    rfl

def oldRow : Booking :=
  ⟨1, "Old", "old@example.com", 0, 1, "rejected", none, 0, some 4, some "Mom"⟩

def newRow : Booking :=
  ⟨2, "New", "new@example.com", 0, 1, "rejected", none, 0, some 10, some "Mom"⟩

def retDemoL : Ledger := ⟨[oldRow, newRow], 3⟩

/-- Claim C7 witness: at clock 20 the rejected row decided at time 4 (16 days
before) is deleted, the one decided at time 10 (10 days before) is
retained, and a second run deletes zero rows. -/
theorem cleanup_spec_witness :
    (oldRow ∉ (cleanup_old_requests 20 retDemoL).1.bookings) ∧
    newRow ∈ (cleanup_old_requests 20 retDemoL).1.bookings ∧
    (cleanup_old_requests 20 (cleanup_old_requests 20 retDemoL).1).2 = 0 := by
  refine ⟨fun hmem => ?_, ?_, (cleanup_spec 20 retDemoL).2.2⟩
  · exact (((cleanup_spec 20 retDemoL).1 oldRow).1 hmem).2
      ⟨Or.inr rfl, show (4 : Int) < 20 - retentionDays by decide⟩
  · exact ((cleanup_spec 20 retDemoL).1 newRow).2
      ⟨by decide, fun h => (show ¬((10 : Int) < 20 - retentionDays) by decide) h.2⟩

theorem bookingLe_trans (a b c : Booking) (hab : bookingLe a b = true)
    (hbc : bookingLe b c = true) : bookingLe a c = true := by
  simp only [bookingLe, Bool.or_eq_true, Bool.and_eq_true, decide_eq_true_eq]
    at hab hbc ⊢
  rcases hab with h | ⟨h1, h2⟩ <;> rcases hbc with h' | ⟨h1', h2'⟩
  · left; omega
  · left; omega
  · left; omega
  · right; exact ⟨by omega, by omega⟩

theorem bookingLe_total (a b : Booking) :
    (bookingLe a b || bookingLe b a) = true := by
  simp only [bookingLe, Bool.or_eq_true, Bool.and_eq_true, decide_eq_true_eq]
  omega

/-- Claim C8: with a passing admin check, listing with `active=true` returns
exactly the rows whose status is `pending` or `approved`, and the public
approved listing returns exactly the `approved` rows; both results are
ordered by `start_date` ascending with ties broken by `id` ascending. -/
theorem listing_spec (adminSecret : String) (secret : Option String) (L : Ledger)
    (hadmin : require_admin adminSecret secret = true) :
    ∀ xs, list_requests adminSecret secret none (some true) L = .ok xs →
      ((∀ b, b ∈ xs ↔
          b ∈ L.bookings ∧ (b.status = "pending" ∨ b.status = "approved")) ∧
        xs.Pairwise (fun a b => a.start_date < b.start_date ∨
          (a.start_date = b.start_date ∧ a.id ≤ b.id))) ∧
      ((∀ b, b ∈ approved_bookings L ↔ b ∈ L.bookings ∧ b.status = "approved") ∧
        (approved_bookings L).Pairwise (fun a b => a.start_date < b.start_date ∨
          (a.start_date = b.start_date ∧ a.id ≤ b.id))) := by
  intro xs hxs
  simp only [list_requests, hadmin, Bool.not_true, Bool.false_eq_true, if_false,
    reduceIte, Except.ok.injEq] at hxs
  subst hxs
  refine ⟨⟨fun b => ?_, ?_⟩, fun b => ?_, ?_⟩
  · rw [List.mem_mergeSort, List.mem_filter]
    simp
  · refine List.Pairwise.imp ?_
      (List.sorted_mergeSort bookingLe_trans bookingLe_total
        (L.bookings.filter (fun b => b.status == "pending" || b.status == "approved")))
    intro a b hab
    simpa [bookingLe] using hab
  · rw [approved_bookings, List.mem_mergeSort, List.mem_filter]
    simp
  · refine List.Pairwise.imp ?_
      (List.sorted_mergeSort bookingLe_trans bookingLe_total
        (L.bookings.filter (fun b => b.status == "approved")))
    intro a b hab
    simpa [bookingLe] using hab

/-- Claim C8 witness: on the demo state, pending Bob is in the active listing
and approved Alice is in the public approved listing. -/
theorem listing_spec_witness :
    bobRow ∈ (demoL3.bookings.filter (fun b =>
      b.status == "pending" || b.status == "approved")).mergeSort bookingLe ∧
    aliceApproved ∈ approved_bookings demoL3 := by
  have h := listing_spec "s3cret" (some "s3cret") demoL3 (by decide) _ rfl
  exact ⟨(h.1.1 bobRow).2 ⟨by decide, Or.inl rfl⟩,
    (h.2.1 aliceApproved).2 ⟨by decide, rfl⟩⟩
